import Mathlib

/-!
Verification of the llm-gateway proxy data plane.

This file gives a shallow embedding of the parts of the gateway that the
claims concern, translated from the Rust source:

* a JSON value model and a textual JSON parser (the fragment of
  `serde_json` the gateway exercises: objects, arrays, strings, booleans,
  null, integer numbers; non-integer numbers are outside that fragment
  and are treated as parse failures, which none of the claims touch);
* `parse_sse_usage_and_body` from `src/routes/proxy.rs`, with Rust's
  `str::lines` and `str::trim` semantics on the ASCII text the SSE
  buffers contain;
* the `ShadowStream` tee from `src/routes/proxy.rs` as a pure function
  on a finite chunk sequence;
* `validate_key`, `warm_up_redis` and `list_keys` from
  `src/services/key_service.rs`, with the Redis set and the Postgres
  tables modelled as lists (the `user_keys.key_hash` column is unique
  per the schema, so first-match lookup coincides with SQL lookup);
* the `chat_completions` handler from `src/routes/proxy.rs` up to the
  point where the upstream request leaves the gateway; the already
  resolved route (or its absence, or a store error) is a parameter.

Machine integers (`i64`, `i32`) are modelled as `Int`; the one place the
source truncates (`as i32` on the parsed usage numbers) is modelled
explicitly by `wrapI32`.  SQL `DOUBLE PRECISION` coefficients are
modelled as `ℚ` with `round`; this is exact on the inputs the claims
use.
-/

set_option maxRecDepth 10000

/-! ## JSON value model -/

mutual
/-- JSON values, mirroring `serde_json::Value` on the integer fragment. -/
inductive Json where
  | null : Json
  | bool (b : Bool) : Json
  | num (n : Int) : Json
  | str (s : String) : Json
  | arr (items : JsonList) : Json
  | obj (fields : JsonFields) : Json
deriving DecidableEq

/-- A list of JSON values (spine of `Json.arr`). -/
inductive JsonList where
  | nil : JsonList
  | cons (hd : Json) (tl : JsonList) : JsonList
deriving DecidableEq

/-- Ordered key/value members of a JSON object (spine of `Json.obj`). -/
inductive JsonFields where
  | nil : JsonFields
  | cons (key : String) (val : Json) (tl : JsonFields) : JsonFields
deriving DecidableEq
end

/-- Build a `JsonFields` spine from a Lean list, for readable literals. -/
def JsonFields.ofList : List (String × Json) → JsonFields
  | [] => .nil
  | (k, v) :: rest => .cons k v (JsonFields.ofList rest)

/-- Build a `JsonList` spine from a Lean list, for readable literals. -/
def JsonList.ofList : List Json → JsonList
  | [] => .nil
  | j :: rest => .cons j (JsonList.ofList rest)

/-- Append one value at the end of a `JsonList` (`Vec::push`). -/
def JsonList.push : JsonList → Json → JsonList
  | .nil, j => .cons j .nil
  | .cons h t, j => .cons h (JsonList.push t j)

/-- Key lookup in an object's member list (`serde_json::Map` lookup;
object keys are unique after parsing, so first match is the match). -/
def lookupField : JsonFields → String → Option Json
  | .nil, _ => none
  | .cons k v rest, key => if k = key then some v else lookupField rest key

/-- `Value::get(key)`: returns the member value on objects, `None` otherwise. -/
def Json.get : Json → String → Option Json
  | .obj fields, key => lookupField fields key
  | _, _ => none

/-- Replace the value under `key`, or append the member if absent
(`map[key] = v` on a `serde_json` object). -/
def setFieldList : JsonFields → String → Json → JsonFields
  | .nil, key, v => .cons key v .nil
  | .cons k w rest, key, v =>
    if k = key then .cons key v rest else .cons k w (setFieldList rest key v)

/-- `value[key] = v` as the gateway uses it: the value is already known
to be an object at every assignment site, other values pass through. -/
def Json.setField : Json → String → Json → Json
  | .obj fields, key, v => .obj (setFieldList fields key v)
  | other, _, _ => other

/-- `Value::as_str`. -/
def Json.asStr : Json → Option String
  | .str s => some s
  | _ => none

/-- `Value::as_bool`. -/
def Json.asBool : Json → Option Bool
  | .bool b => some b
  | _ => none

/-- `Value::as_i64` (a `Json.num` always holds an integer in this model). -/
def Json.asI64 : Json → Option Int
  | .num n => some n
  | _ => none

/-- Two's-complement truncation of an `i64` value to `i32` (`as i32`). -/
def wrapI32 (n : Int) : Int := (n + 2 ^ 31) % 2 ^ 32 - 2 ^ 31

/-! ## JSON text parser

Models `serde_json::from_str` on the fragment described in the header.
Recursion is fuel-indexed; `parseJsonChars` supplies enough fuel for any
input, so the fuel never runs out on the depth a given text can reach. -/

/-- The `{` character, kept as a named constant. -/
def lbrace : Char := Char.ofNat 123

/-- The `}` character, kept as a named constant. -/
def rbrace : Char := Char.ofNat 125

/-- JSON / Rust ASCII whitespace (space, tab, line feed, carriage return). -/
def isWsChar (c : Char) : Bool := c = ' ' || c = '\t' || c = '\n' || c = '\r'

/-- Drop leading whitespace. -/
def skipWs : List Char → List Char
  | [] => []
  | c :: cs => if isWsChar c then skipWs cs else c :: cs

/-- Numeric value of a decimal digit character. -/
def digitVal (c : Char) : Nat := c.toNat - 48

/-- Split a character list into its leading run of digits and the rest. -/
def takeDigits : List Char → (List Char × List Char)
  | [] => ([], [])
  | c :: cs =>
    if c.isDigit then
      let p := takeDigits cs
      (c :: p.1, p.2)
    else ([], c :: cs)

/-- Decimal value of a digit run. -/
def digitsToNat (ds : List Char) : Nat := ds.foldl (fun n c => n * 10 + digitVal c) 0

/-- Parse an integer JSON number; a fraction or exponent marker makes the
text leave the integer fragment and the parse fails. -/
def parseNumber (cs : List Char) : Option (Json × List Char) :=
  let p : Bool × List Char :=
    match cs with
    | '-' :: rest => (true, rest)
    | _ => (false, cs)
  match takeDigits p.2 with
  | ([], _) => none
  | (ds, rest) =>
    let ok : Option (Json × List Char) :=
      some (Json.num (if p.1 then -(digitsToNat ds : Int) else (digitsToNat ds : Int)), rest)
    match rest with
    | [] => ok
    | c :: _ => if c = '.' || c = 'e' || c = 'E' then none else ok

/-- Value of a hexadecimal digit character. -/
def hexVal (c : Char) : Option Nat :=
  if c.isDigit then some (c.toNat - 48)
  else if 'a' ≤ c && c ≤ 'f' then some (c.toNat - 87)
  else if 'A' ≤ c && c ≤ 'F' then some (c.toNat - 55)
  else none

/-- Resolve a single-character string escape. -/
def escChar (e : Char) : Option Char :=
  if e = '"' then some '"'
  else if e = '\\' then some '\\'
  else if e = '/' then some '/'
  else if e = 'n' then some '\n'
  else if e = 't' then some '\t'
  else if e = 'r' then some '\r'
  else if e = 'b' then some (Char.ofNat 8)
  else if e = 'f' then some (Char.ofNat 12)
  else none

/-- Parse the body of a string literal after the opening quote
(surrogate-pair combination of `\u` escapes is not modelled). -/
def parseStringRest : Nat → List Char → Option (List Char × List Char)
  | 0, _ => none
  | _, [] => none
  | fuel + 1, c :: cs =>
    if c = '"' then some ([], cs)
    else if c = '\\' then
      match cs with
      | [] => none
      | e :: cs2 =>
        if e = 'u' then
          match cs2 with
          | h1 :: h2 :: h3 :: h4 :: cs3 =>
            match hexVal h1, hexVal h2, hexVal h3, hexVal h4 with
            | some a, some b, some c4, some d =>
              (parseStringRest fuel cs3).map
                (fun p => (Char.ofNat (((a * 16 + b) * 16 + c4) * 16 + d) :: p.1, p.2))
            | _, _, _, _ => none
          | _ => none
        else
          match escChar e with
          | some ch => (parseStringRest fuel cs2).map (fun p => (ch :: p.1, p.2))
          | none => none
    else (parseStringRest fuel cs).map (fun p => (c :: p.1, p.2))

mutual
/-- Parse one JSON value (leading whitespace allowed). -/
def parseValue : Nat → List Char → Option (Json × List Char)
  | 0, _ => none
  | fuel + 1, cs =>
    match skipWs cs with
    | [] => none
    | c :: rest =>
      if c = '"' then
        (parseStringRest (rest.length + 1) rest).map (fun p => (Json.str (String.mk p.1), p.2))
      else if c = lbrace then
        match skipWs rest with
        | d :: r => if d = rbrace then some (Json.obj .nil, r) else
            (parseMembers fuel rest).map (fun p => (Json.obj p.1, p.2))
        | [] => none
      else if c = '[' then
        match skipWs rest with
        | ']' :: r => some (Json.arr .nil, r)
        | _ => (parseItems fuel rest).map (fun p => (Json.arr p.1, p.2))
      else if c = 't' then
        match rest with
        | 'r' :: 'u' :: 'e' :: r => some (Json.bool true, r)
        | _ => none
      else if c = 'f' then
        match rest with
        | 'a' :: 'l' :: 's' :: 'e' :: r => some (Json.bool false, r)
        | _ => none
      else if c = 'n' then
        match rest with
        | 'u' :: 'l' :: 'l' :: r => some (Json.null, r)
        | _ => none
      else if c = '-' || c.isDigit then parseNumber (c :: rest)
      else none

/-- Parse the non-empty element list of an array up to `]`. -/
def parseItems : Nat → List Char → Option (JsonList × List Char)
  | 0, _ => none
  | fuel + 1, cs =>
    match parseValue fuel cs with
    | none => none
    | some (v, rest) =>
      match skipWs rest with
      | ',' :: r2 => (parseItems fuel r2).map (fun p => (JsonList.cons v p.1, p.2))
      | ']' :: r2 => some (JsonList.cons v .nil, r2)
      | _ => none

/-- Parse the non-empty member list of an object up to the closing brace. -/
def parseMembers : Nat → List Char → Option (JsonFields × List Char)
  | 0, _ => none
  | fuel + 1, cs =>
    match skipWs cs with
    | '"' :: r =>
      match parseStringRest (r.length + 1) r with
      | none => none
      | some (key, r2) =>
        match skipWs r2 with
        | ':' :: r3 =>
          match parseValue fuel r3 with
          | none => none
          | some (v, r4) =>
            match skipWs r4 with
            | ',' :: r5 => (parseMembers fuel r5).map
                (fun p => (JsonFields.cons (String.mk key) v p.1, p.2))
            | d :: r5 =>
              if d = rbrace then some (JsonFields.cons (String.mk key) v .nil, r5) else none
            | [] => none
        | _ => none
    | _ => none
end

/-- Parse a whole character list as one JSON document (trailing
whitespace allowed, trailing garbage refused, as `serde_json` does). -/
def parseJsonChars (cs : List Char) : Option Json :=
  match parseValue (2 * cs.length + 4) cs with
  | some (j, rest) => if (skipWs rest).isEmpty then some j else none
  | none => none

/-- `serde_json::from_str` / `from_slice` on a string. -/
def parseJson (s : String) : Option Json := parseJsonChars s.data

/-! ## Rust line and trim helpers -/

/-- `str::split_inclusive('\n')`: pieces each keeping their newline, the
last piece possibly without one; the empty string yields no pieces. -/
def splitInclNl : List Char → List (List Char)
  | [] => []
  | c :: rest =>
    if c = '\n' then ['\n'] :: splitInclNl rest
    else
      match splitInclNl rest with
      | [] => [[c]]
      | l :: ls => (c :: l) :: ls

/-- Remove a single trailing occurrence of `c`, if present. -/
def stripSuffixChar (l : List Char) (c : Char) : Option (List Char) :=
  match l.getLast? with
  | some d => if d = c then some l.dropLast else none
  | none => none

/-- The per-piece map of `str::lines`: drop the trailing `'\n'` and, when
one was dropped, a `'\r'` just before it. -/
def lineMap (l : List Char) : List Char :=
  match stripSuffixChar l '\n' with
  | none => l
  | some l2 =>
    match stripSuffixChar l2 '\r' with
    | none => l2
    | some l3 => l3

/-- `str::lines`. -/
def rustLines (cs : List Char) : List (List Char) := (splitInclNl cs).map lineMap

/-- `str::trim` (the buffers at hand are ASCII, where Rust's Unicode
whitespace classes coincide with `isWsChar`). -/
def rustTrim (l : List Char) : List Char :=
  ((l.dropWhile isWsChar).reverse.dropWhile isWsChar).reverse

/-- Remove the literal marker `pre` from the front of `cs` (`str::strip`
of a leading pattern), or fail. -/
def stripPre : List Char → List Char → Option (List Char)
  | [], cs => some cs
  | _ :: _, [] => none
  | p :: ps, c :: cs => if c = p then stripPre ps cs else none

/-! ## SSE usage parser — `parse_sse_usage_and_body` (src/routes/proxy.rs) -/

/-- The payload a single SSE line contributes: trim the line, require and
remove the `data:` marker, trim, skip `[DONE]`, and parse the JSON;
any failure skips the line. -/
def dataPayload (line : List Char) : Option Json :=
  match stripPre "data:".data (rustTrim line) with
  | none => none
  | some d =>
    let d := rustTrim d
    if d = "[DONE]".data then none
    else parseJsonChars d

/-- Accumulator of the SSE scan: collected event objects and the latest
usage numbers seen so far. -/
structure SseAcc where
  chunks : JsonList
  p : Option Int
  c : Option Int
  t : Option Int
deriving DecidableEq

/-- One iteration of the SSE line loop: a parsed event updates each usage
field it carries (later events overwrite earlier ones) and is appended
to the collected chunks. -/
def sseStep (acc : SseAcc) (line : List Char) : SseAcc :=
  match dataPayload line with
  | none => acc
  | some json =>
    let pNew : Option Int :=
      match (json.get "usage").bind (fun u => (u.get "prompt_tokens").bind Json.asI64) with
      | some n => some (wrapI32 n)
      | none => acc.p
    let cNew : Option Int :=
      match (json.get "usage").bind (fun u => (u.get "completion_tokens").bind Json.asI64) with
      | some n => some (wrapI32 n)
      | none => acc.c
    let tNew : Option Int :=
      match (json.get "usage").bind (fun u => (u.get "total_tokens").bind Json.asI64) with
      | some n => some (wrapI32 n)
      | none => acc.t
    { chunks := acc.chunks.push json, p := pNew, c := cNew, t := tNew }

/-- `parse_sse_usage_and_body`: scan the (UTF-8 decoded) SSE buffer line
by line and return the final usage numbers plus the array of parsed
event objects (`None` when no event parsed). -/
def parse_sse_usage_and_body (buffer : String) :
    Option Int × Option Int × Option Int × Option Json :=
  let acc := (rustLines buffer.data).foldl sseStep ⟨.nil, none, none, none⟩
  (acc.p, acc.c, acc.t,
    match acc.chunks with
    | .nil => none
    | cs => some (Json.arr cs))

example : parse_sse_usage_and_body "" = (none, none, none, none) := by decide

example : parse_sse_usage_and_body "data: [DONE]\n\n" = (none, none, none, none) := by decide

/-! ## Shadow stream tee — `ShadowStream::poll_next` (src/routes/proxy.rs) -/

/-- Run the tee over a finite upstream item sequence: each `Ok` chunk is
copied into the shadow channel and then yielded to the client; an
upstream error is converted and yielded to the client only.  Returns
the client item sequence and the channel chunk sequence. -/
def shadowStreamRun {ε α : Type} : List (Except ε α) → List (Except ε α) × List α
  | [] => ([], [])
  | .ok c :: rest =>
    let p := shadowStreamRun rest
    (.ok c :: p.1, c :: p.2)
  | .error e :: rest =>
    let p := shadowStreamRun rest
    (.error e :: p.1, p.2)

/-- The aggregator task's receive loop: `buffer.extend_from_slice(&chunk)`
over every chunk received from the shadow channel, starting empty. -/
def aggregatorBuffer (chunks : List (List Nat)) : List Nat :=
  chunks.foldl (fun b c => b ++ c) []

/-! ## Key store, auth cache and authenticator — src/services/key_service.rs,
src/middleware/auth.rs

The Redis set `gateway:active_key_hashes` is a list of hex strings with
set membership; the `user_keys` table is a list of rows.  SHA-256 is an
uninterpreted function parameter `hashKey`: every statement below holds
for all choices of it. -/

/-- A `user_keys` row (the columns the data plane reads). -/
structure UserKeyRow where
  id : Nat
  key_hash : String
  is_active : Bool
  token_budget : Option Int
  tokens_used : Int
deriving DecidableEq

/-- `SELECT ... FROM user_keys WHERE key_hash = $1 AND is_active = TRUE`
(`key_hash` is unique, so the first match is the only match). -/
def lookupActive (db : List UserKeyRow) (hash : String) : Option UserKeyRow :=
  db.find? (fun r => r.key_hash == hash && r.is_active)

/-- The result of a successful key validation (`KeyValidation`). -/
structure KeyValidation where
  key_id : Nat
  key_hash : String
  token_budget : Option Int
  tokens_used : Int
deriving DecidableEq

/-- `validate_key`: fast path through the Redis set, slow path through
Postgres with a cache back-fill on success.  Returns the validation
outcome and the cache contents afterwards. -/
def validate_key (hashKey : String → String) (plain : String)
    (cache : List String) (db : List UserKeyRow) : Option KeyValidation × List String :=
  let hash := hashKey plain
  if cache.contains hash then
    ((lookupActive db hash).map (fun r => ⟨r.id, hash, r.token_budget, r.tokens_used⟩), cache)
  else
    match lookupActive db hash with
    | some r => (some ⟨r.id, hash, r.token_budget, r.tokens_used⟩, hash :: cache)
    | none => (none, cache)

/-- The identity attached to the request context on successful auth. -/
structure KeyIdentity where
  key_id : Nat
  key_hash : String
  token_budget : Option Int
  tokens_used : Int
deriving DecidableEq

/-- Outcome of the user-key auth middleware (the store-error branch that
maps to 500 is not reachable in this errorless store model). -/
inductive AuthOutcome where
  | ok (identity : KeyIdentity)
  | unauthorized (msg : String)
deriving DecidableEq

/-- Strip the `Bearer ` marker from the Authorization header value. -/
def stripBearer (s : String) : Option String :=
  (stripPre "Bearer ".data s.data).map String.mk

/-- `user_key_auth`: extract the bearer token, validate it, and either
attach a `KeyIdentity` or reject with 401. -/
def user_key_auth (hashKey : String → String) (authHeader : Option String)
    (cache : List String) (db : List UserKeyRow) : AuthOutcome × List String :=
  match authHeader.bind stripBearer with
  | none => (.unauthorized "Missing Authorization header", cache)
  | some token =>
    match validate_key hashKey token cache db with
    | (some v, cache2) => (.ok ⟨v.key_id, v.key_hash, v.token_budget, v.tokens_used⟩, cache2)
    | (none, cache2) => (.unauthorized "Invalid API key", cache2)

/-- The `key_hash` values of the active `user_keys` rows. -/
def activeHashes (db : List UserKeyRow) : List String :=
  (db.filter (fun r => r.is_active)).map (fun r => r.key_hash)

/-- `warm_up_redis`: fetch the active hashes; only when at least one
exists, delete the Redis set and re-populate it — with zero active
hashes the prior cache contents are left in place. -/
def warm_up_redis (db : List UserKeyRow) (cache : List String) : List String :=
  let hashes := activeHashes db
  if hashes.isEmpty then cache else hashes

/-! ## Weighted usage listing — `list_keys` (src/services/key_service.rs) -/

/-- A `request_logs` row (the columns the aggregation reads). -/
structure RequestLogRow where
  user_key_id : Option Nat
  model_requested : String
  prompt_tokens : Option Int
  completion_tokens : Option Int
deriving DecidableEq

/-- A `models` row (the columns the aggregation reads; `name` is unique). -/
structure ModelCoeffRow where
  name : String
  input_token_coefficient : ℚ
  output_token_coefficient : ℚ
deriving DecidableEq

/-- The per-row weighted expression of the SQL query:
`ROUND(COALESCE(prompt,0)*COALESCE(in_coeff,1.0)
      + COALESCE(completion,0)*COALESCE(out_coeff,1.0))`
after the left join of the log row against `models` by name. -/
def rowWeighted (models : List ModelCoeffRow) (r : RequestLogRow) : Int :=
  let joined := models.find? (fun mr => mr.name == r.model_requested)
  let ic : ℚ := ((joined.map (fun mr => mr.input_token_coefficient)).getD 1)
  let oc : ℚ := ((joined.map (fun mr => mr.output_token_coefficient)).getD 1)
  round ((r.prompt_tokens.getD 0 : ℚ) * ic + (r.completion_tokens.getD 0 : ℚ) * oc)

/-- Add a per-row weighted value into the grouped totals (the running
`SUM ... GROUP BY user_key_id` result). -/
def addWeighted : List (Nat × Int) → Nat → Int → List (Nat × Int)
  | [], kid, w => [(kid, w)]
  | (k, t) :: rest, kid, w =>
    if k = kid then (k, t + w) :: rest else (k, t) :: addWeighted rest kid w

/-- Lookup in the grouped totals (the `HashMap::get` on the query result). -/
def lookupTotal : List (Nat × Int) → Nat → Option Int
  | [], _ => none
  | (k, w) :: rest, kid => if k = kid then some w else lookupTotal rest kid

/-- Accumulate one log row into the grouped totals: rows with a NULL
`user_key_id` fall outside the `WHERE r.user_key_id IS NOT NULL` filter. -/
def weightedStep (models : List ModelCoeffRow) (acc : List (Nat × Int))
    (r : RequestLogRow) : List (Nat × Int) :=
  match r.user_key_id with
  | none => acc
  | some kid => addWeighted acc kid (rowWeighted models r)

/-- The grouped weighted-total query: one entry per `user_key_id` that
appears (non-null) in `request_logs`, holding the sum of the per-row
weighted expressions of its rows. -/
def weightedTotals (models : List ModelCoeffRow) (logs : List RequestLogRow) :
    List (Nat × Int) :=
  logs.foldl (weightedStep models) []

/-- `list_keys` restricted to the reported usage numbers: each key is
listed with the grouped weighted total when present, the stored
`tokens_used` counter otherwise. -/
def list_keys (keys : List UserKeyRow) (logs : List RequestLogRow)
    (models : List ModelCoeffRow) : List (Nat × Int) :=
  let weighted := weightedTotals models logs
  keys.map (fun k => (k.id, (lookupTotal weighted k.id).getD k.tokens_used))

/-! ## Proxy handler — `chat_completions` (src/routes/proxy.rs)

The handler is modelled up to the point where the upstream request
leaves the gateway: `HandlerResult.reject` is an error response produced
without contacting the upstream (and hence without a log insert or a
`tokens_used` increment, both of which the source performs only after
the upstream call), and `HandlerResult.forward` carries the rewritten
body, the upstream URL and the stream flag of the outgoing request.
Route resolution is a parameter holding the already-computed outcome of
`model_service::resolve_model_route` (`Except.error` = store error). -/

/-- A `ModelRoute` as resolved from the caches / store. -/
structure ModelRoute where
  provider_id : Nat
  provider_model_name : String
  base_url : String
  api_key : String
  provider_kind : String
  input_token_coefficient : ℚ
  output_token_coefficient : ℚ
deriving DecidableEq

/-- What the handler does with a request, observed at the upstream edge. -/
inductive HandlerResult where
  | reject (status : Nat) (body : Json)
  | forward (upstreamBody : Json) (url : String) (is_stream : Bool)
deriving DecidableEq

/-- The error body shape every rejection uses. -/
def errBody (msg : String) : Json :=
  Json.obj (.cons "error" (Json.obj (.cons "message" (Json.str msg) .nil)) .nil)

/-- `body_json.get("stream").and_then(as_bool).unwrap_or(false)`. -/
def extract_is_stream (body_json : Json) : Bool :=
  ((body_json.get "stream").bind Json.asBool).getD false

/-- The body rewrite before the upstream call: replace `model` when the
provider uses a different name, and for streaming requests inject
`stream_options = {"include_usage": true}` when absent. -/
def rewrite_body (body_json : Json) (providerModelName modelName : String)
    (is_stream : Bool) : Json :=
  let b1 :=
    if providerModelName ≠ modelName then
      body_json.setField "model" (Json.str providerModelName)
    else body_json
  if is_stream && (b1.get "stream_options").isNone then
    b1.setField "stream_options" (Json.obj (.cons "include_usage" (Json.bool true) .nil))
  else b1

/-- Whether the budget pre-check lets the request through. -/
def budget_gate_passes (identity : KeyIdentity) : Bool :=
  match identity.token_budget with
  | some budget => identity.tokens_used < budget
  | none => true

/-- Route resolution and the upstream send, after the budget gate:
store error maps to 500, unknown model to 400, otherwise the rewritten
body is forwarded to `<base_url>/chat/completions`. -/
def route_and_forward (body_json : Json) (model_name : String) (is_stream : Bool)
    (resolveResult : Except Unit (Option ModelRoute)) : HandlerResult :=
  match resolveResult with
  | .error _ => .reject 500 (errBody "Internal server error")
  | .ok none =>
    .reject 400 (errBody ("Model \"" ++ model_name ++ "\" is not configured in the gateway"))
  | .ok (some route) =>
    .forward (rewrite_body body_json route.provider_model_name model_name is_stream)
      (route.base_url ++ "/chat/completions") is_stream

/-- `chat_completions` up to the upstream edge: parse the body, extract
`model` and `stream`, run the budget pre-check (429 before any route
resolution), then resolve and forward.  The serde error text inside the
invalid-JSON message is abstracted to its fixed part. -/
def chat_completions (identity : KeyIdentity) (bodyText : String)
    (resolveResult : Except Unit (Option ModelRoute)) : HandlerResult :=
  match parseJson bodyText with
  | none => .reject 400 (errBody "Invalid JSON")
  | some body_json =>
    match (body_json.get "model").bind Json.asStr with
    | none => .reject 400 (errBody "\"model\" field is required")
    | some model_name =>
      let is_stream := extract_is_stream body_json
      match identity.token_budget with
      | some budget =>
        if identity.tokens_used ≥ budget then
          .reject 429 (errBody ("Token budget exhausted: " ++ toString identity.tokens_used
            ++ "/" ++ toString budget ++ " tokens used"))
        else route_and_forward body_json model_name is_stream resolveResult
      | none => route_and_forward body_json model_name is_stream resolveResult

/-! ## Supporting lemmas -/

theorem shadowStreamRun_ok {ε : Type} (ups : List (List Nat)) :
    shadowStreamRun (ups.map Except.ok : List (Except ε (List Nat))) = (ups.map Except.ok, ups) := by
  induction ups with
  | nil => rfl
  | cons c rest ih => simp [shadowStreamRun, ih]

theorem foldl_append_flatten (l : List (List Nat)) (acc : List Nat) :
    l.foldl (fun b c => b ++ c) acc = acc ++ l.flatten := by
  induction l generalizing acc with
  | nil => simp
  | cons c rest ih => simp [List.foldl_cons, ih]

/-! ## C3 — streaming tee fidelity -/

/-- C3: for every finite sequence of chunks successfully produced by the
upstream body, the tee yields exactly that sequence to the client, in
order and byte-for-byte, sends a copy of every chunk to the aggregator
channel in the same order, and the aggregator's concatenated buffer
equals the concatenation of the upstream chunks. -/
theorem shadow_stream_tee_fidelity (ups : List (List Nat)) :
    shadowStreamRun (ups.map Except.ok : List (Except Unit (List Nat))) = (ups.map Except.ok, ups)
    ∧ aggregatorBuffer
        (shadowStreamRun (ups.map Except.ok : List (Except Unit (List Nat)))).2 = ups.flatten := by
  refine ⟨shadowStreamRun_ok ups, ?_⟩
  rw [shadowStreamRun_ok ups]
  simpa [aggregatorBuffer] using foldl_append_flatten ups []

/-- C3 witness: the tee on a concrete three-chunk upstream sequence. -/
theorem shadow_stream_tee_fidelity_witness :
    shadowStreamRun ([[1, 2], [3], [4, 5]].map Except.ok : List (Except Unit (List Nat)))
        = ([[1, 2], [3], [4, 5]].map Except.ok, [[1, 2], [3], [4, 5]])
    ∧ aggregatorBuffer
        (shadowStreamRun ([[1, 2], [3], [4, 5]].map Except.ok
          : List (Except Unit (List Nat)))).2 = [1, 2, 3, 4, 5] :=
  shadow_stream_tee_fidelity [[1, 2], [3], [4, 5]]

/-! ## C4 — warm-up and the cache subset invariant -/

/-- C4 counterexample: a stale hash of a deactivated key survives
`warm_up_redis` when the store holds zero active keys, so the cache is
not a subset of the active hash set after warm-up. -/
theorem warm_up_zero_active_counterexample :
    ¬ (∀ h ∈ warm_up_redis [⟨1, "deadbeef", false, none, 0⟩] ["deadbeef"],
        h ∈ activeHashes [⟨1, "deadbeef", false, none, 0⟩]) := by decide

/-- C4 amended: when the store holds at least one active key,
`warm_up_redis` replaces the cache with exactly the active hash set; when
it holds none, the prior cache contents survive untouched. -/
theorem warm_up_redis_spec (db : List UserKeyRow) (cache : List String) :
    (activeHashes db ≠ [] → warm_up_redis db cache = activeHashes db)
    ∧ (activeHashes db = [] → warm_up_redis db cache = cache) := by
  constructor
  · intro h
    unfold warm_up_redis
    simp [List.isEmpty_iff, h]
  · intro h
    unfold warm_up_redis
    simp [List.isEmpty_iff, h]

/-- C4 witness: warm-up with one active key replaces a stale cache. -/
theorem warm_up_redis_spec_witness :
    warm_up_redis [⟨1, "aa11", true, none, 0⟩] ["stale"]
      = activeHashes [⟨1, "aa11", true, none, 0⟩] :=
  (warm_up_redis_spec [⟨1, "aa11", true, none, 0⟩] ["stale"]).1 (by decide)

/-! ## C6 — SSE parser base cases -/

theorem splitInclNl_append_nl (pre cs : List Char) (h : '\n' ∉ pre) :
    splitInclNl (pre ++ '\n' :: cs) = (pre ++ ['\n']) :: splitInclNl cs := by
  induction pre with
  | nil => simp [splitInclNl]
  | cons c pre ih =>
    have hc : c ≠ '\n' := fun e => h (e ▸ List.mem_cons_self c pre)
    have hpre : '\n' ∉ pre := fun e => h (List.mem_cons_of_mem c e)
    simp only [List.cons_append, splitInclNl, if_neg hc, List.append_eq]
    rw [ih hpre]

theorem rustLines_data_skip_line (rest : String) :
    rustLines (("data: oops\n" ++ rest).data) = "data: oops".data :: rustLines rest.data := by
  have hd : ("data: oops\n" ++ rest).data = "data: oops".data ++ '\n' :: rest.data := by
    rw [String.data_append,
      show "data: oops\n".data = "data: oops".data ++ ['\n'] from by decide]
    simp
  rw [hd]
  unfold rustLines
  rw [splitInclNl_append_nl "data: oops".data rest.data (by decide), List.map_cons]
  congr 1

/-- C6: the SSE parser returns `(None, None, None, None)` on the empty
buffer and on a lone `[DONE]` event; a single event carrying usage
`(3, 5, 8)` yields `(Some 3, Some 5, Some 8)` together with a
response-body array holding exactly that event object; and a line whose
payload is not valid JSON is skipped, leaving the result unchanged. -/
theorem sse_parser_base_cases :
    parse_sse_usage_and_body "" = (none, none, none, none)
    ∧ parse_sse_usage_and_body "data: [DONE]\n\n" = (none, none, none, none)
    ∧ parse_sse_usage_and_body
        "data: \x7b\"usage\":\x7b\"prompt_tokens\":3,\"completion_tokens\":5,\"total_tokens\":8\x7d\x7d\n\n"
        = (some 3, some 5, some 8,
            some (Json.arr (.ofList [Json.obj (.ofList
              [("usage", Json.obj (.ofList
                [("prompt_tokens", Json.num 3), ("completion_tokens", Json.num 5),
                 ("total_tokens", Json.num 8)]))])])))
    ∧ ∀ rest : String,
        parse_sse_usage_and_body ("data: oops\n" ++ rest) = parse_sse_usage_and_body rest := by
  refine ⟨by decide, by decide, by decide, ?_⟩
  intro rest
  have h2 : sseStep ⟨.nil, none, none, none⟩ ("data: oops".data) = ⟨.nil, none, none, none⟩ := by
    decide
  simp only [parse_sse_usage_and_body, rustLines_data_skip_line, List.foldl_cons, h2]

/-- C6 witness: the parser applied to a concrete buffer that starts with
an invalid-JSON line followed by a `[DONE]` event. -/
theorem sse_parser_base_cases_witness :
    parse_sse_usage_and_body ("data: oops\n" ++ "data: [DONE]\n\n") = (none, none, none, none) := by
  rw [sse_parser_base_cases.2.2.2 "data: [DONE]\n\n"]
  exact sse_parser_base_cases.2.1

/-! ## C5 — the later usage event wins -/

theorem foldl_sseStep_of_none (ls : List (List Char)) (acc : SseAcc)
    (h : ∀ l ∈ ls, dataPayload l = none) : ls.foldl sseStep acc = acc := by
  induction ls generalizing acc with
  | nil => rfl
  | cons l ls ih =>
    have h0 : dataPayload l = none := h l (List.mem_cons_self l ls)
    have hs : sseStep acc l = acc := by unfold sseStep; rw [h0]
    rw [List.foldl_cons, hs]
    exact ih acc (fun l2 hl2 => h l2 (List.mem_cons_of_mem l hl2))

theorem sseStep_full_usage (acc : SseAcc) (line : List Char) (j u : Json) (p c t : Int)
    (hp : dataPayload line = some j) (hu : j.get "usage" = some u)
    (h1 : u.get "prompt_tokens" = some (Json.num p))
    (h2 : u.get "completion_tokens" = some (Json.num c))
    (h3 : u.get "total_tokens" = some (Json.num t)) :
    sseStep acc line =
      ⟨acc.chunks.push j, some (wrapI32 p), some (wrapI32 c), some (wrapI32 t)⟩ := by
  unfold sseStep
  rw [hp]
  simp [hu, h1, h2, h3, Json.asI64]

theorem wrapI32_eq_self (n : Int) (h1 : -2 ^ 31 ≤ n) (h2 : n < 2 ^ 31) : wrapI32 n = n := by
  unfold wrapI32
  have h3 : (n + 2 ^ 31) % 2 ^ 32 = n + 2 ^ 31 :=
    Int.emod_eq_of_lt (by omega) (by omega)
  omega

/-- C5: whenever the last line of the SSE buffer carrying a JSON payload
is an event whose `usage` object holds all three token counts (as `i32`
values), the parser reports exactly those counts — every earlier event's
usage, in particular that of an earlier of two usage-carrying events, is
overwritten field by field. -/
theorem sse_usage_later_event_wins (buffer : String) (ls ls2 : List (List Char))
    (l : List Char) (j u : Json) (p c t : Int)
    (hlines : rustLines buffer.data = ls ++ l :: ls2)
    (hrest : ∀ l2 ∈ ls2, dataPayload l2 = none)
    (hp : dataPayload l = some j)
    (hu : j.get "usage" = some u)
    (h1 : u.get "prompt_tokens" = some (Json.num p))
    (h2 : u.get "completion_tokens" = some (Json.num c))
    (h3 : u.get "total_tokens" = some (Json.num t))
    (hp1 : -2 ^ 31 ≤ p) (hp2 : p < 2 ^ 31)
    (hc1 : -2 ^ 31 ≤ c) (hc2 : c < 2 ^ 31)
    (ht1 : -2 ^ 31 ≤ t) (ht2 : t < 2 ^ 31) :
    (parse_sse_usage_and_body buffer).1 = some p
    ∧ (parse_sse_usage_and_body buffer).2.1 = some c
    ∧ (parse_sse_usage_and_body buffer).2.2.1 = some t := by
  have hacc : (rustLines buffer.data).foldl sseStep ⟨.nil, none, none, none⟩
      = ⟨((ls.foldl sseStep ⟨.nil, none, none, none⟩).chunks).push j,
          some (wrapI32 p), some (wrapI32 c), some (wrapI32 t)⟩ := by
    rw [hlines, List.foldl_append, List.foldl_cons,
      sseStep_full_usage _ _ _ _ _ _ _ hp hu h1 h2 h3,
      foldl_sseStep_of_none ls2 _ hrest]
  simp only [parse_sse_usage_and_body, hacc]
  exact ⟨by rw [wrapI32_eq_self p hp1 hp2], by rw [wrapI32_eq_self c hc1 hc2],
    by rw [wrapI32_eq_self t ht1 ht2]⟩

/-- C5 witness: a buffer with two usage-carrying events; the reported
usage is that of the second. -/
theorem sse_usage_later_event_wins_witness :
    (parse_sse_usage_and_body
        ("data: \x7b\"usage\":\x7b\"prompt_tokens\":1,\"completion_tokens\":2,\"total_tokens\":3\x7d\x7d\n\ndata: \x7b\"usage\":\x7b\"prompt_tokens\":3,\"completion_tokens\":5,\"total_tokens\":8\x7d\x7d")).1
      = some 3
    ∧ (parse_sse_usage_and_body
        ("data: \x7b\"usage\":\x7b\"prompt_tokens\":1,\"completion_tokens\":2,\"total_tokens\":3\x7d\x7d\n\ndata: \x7b\"usage\":\x7b\"prompt_tokens\":3,\"completion_tokens\":5,\"total_tokens\":8\x7d\x7d")).2.1
      = some 5
    ∧ (parse_sse_usage_and_body
        ("data: \x7b\"usage\":\x7b\"prompt_tokens\":1,\"completion_tokens\":2,\"total_tokens\":3\x7d\x7d\n\ndata: \x7b\"usage\":\x7b\"prompt_tokens\":3,\"completion_tokens\":5,\"total_tokens\":8\x7d\x7d")).2.2.1
      = some 8 :=
  sse_usage_later_event_wins
    "data: \x7b\"usage\":\x7b\"prompt_tokens\":1,\"completion_tokens\":2,\"total_tokens\":3\x7d\x7d\n\ndata: \x7b\"usage\":\x7b\"prompt_tokens\":3,\"completion_tokens\":5,\"total_tokens\":8\x7d\x7d"
    ["data: \x7b\"usage\":\x7b\"prompt_tokens\":1,\"completion_tokens\":2,\"total_tokens\":3\x7d\x7d".data, []]
    []
    "data: \x7b\"usage\":\x7b\"prompt_tokens\":3,\"completion_tokens\":5,\"total_tokens\":8\x7d\x7d".data
    (Json.obj (.ofList [("usage", Json.obj (.ofList
      [("prompt_tokens", Json.num 3), ("completion_tokens", Json.num 5),
       ("total_tokens", Json.num 8)]))]))
    (Json.obj (.ofList
      [("prompt_tokens", Json.num 3), ("completion_tokens", Json.num 5),
       ("total_tokens", Json.num 8)]))
    3 5 8
    (by decide) (by decide) (by decide) (by decide) (by decide) (by decide) (by decide)
    (by decide) (by decide) (by decide) (by decide) (by decide) (by decide)

/-! ## Handler reduction lemma -/

theorem chat_completions_budget_pass (identity : KeyIdentity) (bodyText : String)
    (body_json : Json) (m : String) (resolveResult : Except Unit (Option ModelRoute))
    (hparse : parseJson bodyText = some body_json)
    (hm : (body_json.get "model").bind Json.asStr = some m)
    (hb : budget_gate_passes identity = true) :
    chat_completions identity bodyText resolveResult
      = route_and_forward body_json m (extract_is_stream body_json) resolveResult := by
  simp only [chat_completions, hparse, hm]
  cases hbud : identity.token_budget with
  | none => rfl
  | some B =>
    have hlt : identity.tokens_used < B := by
      unfold budget_gate_passes at hb
      rw [hbud] at hb
      simpa using hb
    have hn : ¬ identity.tokens_used ≥ B := by omega
    simp [hn]

/-! ## C2 — budget gate rejects with 429 before any upstream work -/

/-- C2: when the key's budget is `B`, its used counter is `U ≥ B`, and
the body is valid JSON with a string `model` field, the handler rejects
with 429 and the exact budget message, for every route-resolution
outcome — so no route resolution, upstream call, log insert or usage
increment takes place (all of those happen only on `forward`). -/
theorem budget_exhausted_429 (identity : KeyIdentity) (bodyText : String)
    (resolveResult : Except Unit (Option ModelRoute)) (body_json : Json) (m : String)
    (B U : Int)
    (hB : identity.token_budget = some B)
    (hU : identity.tokens_used = U)
    (hge : U ≥ B)
    (hparse : parseJson bodyText = some body_json)
    (hm : (body_json.get "model").bind Json.asStr = some m) :
    chat_completions identity bodyText resolveResult
      = .reject 429 (errBody ("Token budget exhausted: " ++ toString U ++ "/"
          ++ toString B ++ " tokens used")) := by
  simp only [chat_completions, hparse, hm, hB, hU]
  rw [if_pos (by omega : U ≥ B)]

/-- C2 witness: a key with budget 10 and 10 tokens used is refused with
429 and the message rendered as decimal integers. -/
theorem budget_exhausted_429_witness :
    chat_completions ⟨1, "h", some 10, 10⟩ "\x7b\"model\":\"gpt-4o\"\x7d" (.ok none)
      = .reject 429 (errBody ("Token budget exhausted: " ++ toString (10 : Int) ++ "/"
          ++ toString (10 : Int) ++ " tokens used"))
    ∧ ("Token budget exhausted: " ++ toString (10 : Int) ++ "/"
          ++ toString (10 : Int) ++ " tokens used")
        = "Token budget exhausted: 10/10 tokens used" :=
  ⟨budget_exhausted_429 ⟨1, "h", some 10, 10⟩ _ (.ok none)
      (Json.obj (.cons "model" (Json.str "gpt-4o") .nil)) "gpt-4o" 10 10
      rfl rfl (by decide) (by decide) (by decide),
    by decide⟩

/-! ## C8 — unknown model and store error -/

/-- C8: past the budget gate, with a valid JSON body and model name `m`,
route resolution returning `None` makes the handler reject with 400 and
the exact message (no upstream call), while a store error during
resolution yields 500. -/
theorem unknown_model_400 (identity : KeyIdentity) (bodyText : String)
    (body_json : Json) (m : String)
    (hparse : parseJson bodyText = some body_json)
    (hm : (body_json.get "model").bind Json.asStr = some m)
    (hb : budget_gate_passes identity = true) :
    chat_completions identity bodyText (.ok none)
      = .reject 400 (errBody ("Model \"" ++ m ++ "\" is not configured in the gateway"))
    ∧ chat_completions identity bodyText (.error ())
      = .reject 500 (errBody "Internal server error") := by
  constructor
  · rw [chat_completions_budget_pass identity bodyText body_json m _ hparse hm hb]
    rfl
  · rw [chat_completions_budget_pass identity bodyText body_json m _ hparse hm hb]
    rfl

/-- C8 witness: `{"model":"nope"}` against an empty route table. -/
theorem unknown_model_400_witness :
    chat_completions ⟨1, "h", none, 0⟩ "\x7b\"model\":\"nope\"\x7d" (.ok none)
      = .reject 400 (errBody "Model \"nope\" is not configured in the gateway") := by
  have h := (unknown_model_400 ⟨1, "h", none, 0⟩ "\x7b\"model\":\"nope\"\x7d"
    (Json.obj (.cons "model" (Json.str "nope") .nil)) "nope"
    (by decide) (by decide) (by decide)).1
  rw [show ("Model \"" ++ "nope" ++ "\" is not configured in the gateway")
      = "Model \"nope\" is not configured in the gateway" from by decide] at h
  exact h

/-! ## C10 — only the JSON boolean `true` selects streaming -/

/-- C10: the stream flag used by the handler is `true` exactly when the
body's `stream` member is the JSON boolean `true`; a missing or
mistyped `stream` member is never rejected — past the budget gate with
a resolved route, such a request is forwarded on the non-streaming
path. -/
theorem mistyped_stream_is_nonstreaming :
    (∀ body_json : Json,
        extract_is_stream body_json = true ↔ body_json.get "stream" = some (Json.bool true))
    ∧ ∀ (identity : KeyIdentity) (bodyText : String) (body_json v : Json) (m : String)
        (route : ModelRoute),
        parseJson bodyText = some body_json →
        (body_json.get "model").bind Json.asStr = some m →
        budget_gate_passes identity = true →
        body_json.get "stream" = some v →
        Json.asBool v = none →
        chat_completions identity bodyText (.ok (some route))
          = .forward (rewrite_body body_json route.provider_model_name m false)
              (route.base_url ++ "/chat/completions") false := by
  constructor
  · intro body_json
    unfold extract_is_stream
    cases hj : body_json.get "stream" with
    | none => simp
    | some v => cases v <;> simp [Json.asBool]
  · intro identity bodyText body_json v m route hparse hm hb hv hvb
    have hs : extract_is_stream body_json = false := by
      unfold extract_is_stream
      rw [hv]
      simp [hvb]
    rw [chat_completions_budget_pass identity bodyText body_json m _ hparse hm hb, hs]
    rfl

/-- A sample resolved route for the handler witnesses. -/
def sampleRoute : ModelRoute := ⟨7, "gpt-x", "https://api.example", "sek", "openai", 1, 1⟩

/-- C10 witness: `"stream": "true"` (a string, not a boolean) is accepted
and forwarded as non-streaming. -/
theorem mistyped_stream_is_nonstreaming_witness :
    chat_completions ⟨1, "h", none, 0⟩ "\x7b\"model\":\"gpt\",\"stream\":\"true\"\x7d"
        (.ok (some sampleRoute))
      = .forward
          (rewrite_body
            (Json.obj (.ofList [("model", Json.str "gpt"), ("stream", Json.str "true")]))
            sampleRoute.provider_model_name "gpt" false)
          (sampleRoute.base_url ++ "/chat/completions") false :=
  mistyped_stream_is_nonstreaming.2 ⟨1, "h", none, 0⟩
    "\x7b\"model\":\"gpt\",\"stream\":\"true\"\x7d"
    (Json.obj (.ofList [("model", Json.str "gpt"), ("stream", Json.str "true")]))
    (Json.str "true") "gpt" sampleRoute
    (by decide) (by decide) (by decide) (by decide) (by decide)

/-! ## C7 — request-body rewrite -/

theorem lookupField_set_same : ∀ (f : JsonFields) (k : String) (v : Json),
    lookupField (setFieldList f k v) k = some v
  | .nil, k, v => by simp [setFieldList, lookupField]
  | .cons k2 v2 rest, k, v => by
    by_cases h : k2 = k
    · simp [setFieldList, h, lookupField]
    · simp [setFieldList, h, lookupField, lookupField_set_same rest k v]

theorem lookupField_set_other : ∀ (f : JsonFields) (k k2 : String) (v : Json), k ≠ k2 →
    lookupField (setFieldList f k v) k2 = lookupField f k2
  | .nil, k, k2, v, h => by simp [setFieldList, lookupField, h]
  | .cons k3 v3 rest, k, k2, v, h => by
    by_cases h3 : k3 = k
    · subst h3
      simp [setFieldList, lookupField, h]
    · simp [setFieldList, h3, lookupField, lookupField_set_other rest k k2 v h]

theorem get_obj_of_get_eq_some (j : Json) (k : String) (v : Json) (h : j.get k = some v) :
    ∃ f, j = Json.obj f := by
  cases j with
  | obj f => exact ⟨f, rfl⟩
  | null => simp [Json.get] at h
  | bool b => simp [Json.get] at h
  | num n => simp [Json.get] at h
  | str s => simp [Json.get] at h
  | arr l => simp [Json.get] at h

theorem rewrite_body_gets (f : JsonFields) (pmn m : String) (s : Bool)
    (hm : lookupField f "model" = some (Json.str m)) :
    (rewrite_body (Json.obj f) pmn m s).get "model" = some (Json.str pmn)
    ∧ (s = true → lookupField f "stream_options" = none →
        (rewrite_body (Json.obj f) pmn m s).get "stream_options"
          = some (Json.obj (.cons "include_usage" (Json.bool true) .nil)))
    ∧ (∀ v, lookupField f "stream_options" = some v →
        (rewrite_body (Json.obj f) pmn m s).get "stream_options" = some v)
    ∧ (∀ k, k ≠ "model" → k ≠ "stream_options" →
        (rewrite_body (Json.obj f) pmn m s).get k = lookupField f k) := by
  obtain ⟨g, hg, hgm, hgk⟩ : ∃ g,
      (if pmn ≠ m then (Json.obj f).setField "model" (Json.str pmn) else Json.obj f)
        = Json.obj g
      ∧ lookupField g "model" = some (Json.str pmn)
      ∧ ∀ k, k ≠ "model" → lookupField g k = lookupField f k := by
    by_cases hne : pmn = m
    · exact ⟨f, by simp [hne], by rw [hm, hne], fun k _ => rfl⟩
    · exact ⟨setFieldList f "model" (Json.str pmn), by simp [Json.setField, hne],
        lookupField_set_same f "model" (Json.str pmn),
        fun k hk => lookupField_set_other f "model" k (Json.str pmn) (Ne.symm hk)⟩
  have hso_pres : lookupField g "stream_options" = lookupField f "stream_options" :=
    hgk "stream_options" (by decide)
  simp only [rewrite_body, hg, Json.get]
  cases s with
  | false =>
    refine ⟨hgm, by simp, ?_, ?_⟩
    · intro v hv
      simpa [hso_pres] using hv
    · intro k hk1 hk2
      simp [hgk k hk1]
  | true =>
    rcases Option.eq_none_or_eq_some (lookupField g "stream_options") with hsg | ⟨w, hsg⟩
    · have hsf : lookupField f "stream_options" = none := by rw [← hso_pres]; exact hsg
      rw [if_pos (show (true && (lookupField g "stream_options").isNone) = true by
        simp [hsg])]
      simp only [Json.setField, Json.get]
      refine ⟨?_, ?_, ?_, ?_⟩
      · rw [lookupField_set_other g "stream_options" "model" _ (by decide), hgm]
      · intro _ _
        exact lookupField_set_same g "stream_options" _
      · intro v hv
        rw [hsf] at hv
        cases hv
      · intro k hk1 hk2
        rw [lookupField_set_other g "stream_options" k _ (Ne.symm hk2)]
        exact hgk k hk1
    · have hsf : lookupField f "stream_options" = some w := by rw [← hso_pres]; exact hsg
      rw [if_neg (show ¬ (true && (lookupField g "stream_options").isNone) = true by
        simp [hsg])]
      simp only [Json.get]
      refine ⟨hgm, ?_, ?_, ?_⟩
      · intro _ habs
        rw [hsf] at habs
        cases habs
      · intro v hv
        rw [hso_pres]
        exact hv
      · intro k hk1 _
        exact hgk k hk1

/-- C7: past the budget gate with a resolved route, the handler forwards
the rewritten body to `<base_url>/chat/completions`; in that body the
`model` field equals the route's provider model name (which is the
original name when the two coincide), `stream_options =
{"include_usage": true}` is injected exactly when the request streams
and the member was absent, an already-present `stream_options` value is
preserved unchanged, and every other member is passed through
unmodified. -/
theorem request_body_rewrite (identity : KeyIdentity) (bodyText : String)
    (body_json : Json) (m : String) (route : ModelRoute)
    (hparse : parseJson bodyText = some body_json)
    (hm : body_json.get "model" = some (Json.str m))
    (hb : budget_gate_passes identity = true) :
    chat_completions identity bodyText (.ok (some route))
      = .forward
          (rewrite_body body_json route.provider_model_name m (extract_is_stream body_json))
          (route.base_url ++ "/chat/completions") (extract_is_stream body_json)
    ∧ (rewrite_body body_json route.provider_model_name m
        (extract_is_stream body_json)).get "model"
        = some (Json.str route.provider_model_name)
    ∧ (extract_is_stream body_json = true → body_json.get "stream_options" = none →
        (rewrite_body body_json route.provider_model_name m
          (extract_is_stream body_json)).get "stream_options"
          = some (Json.obj (.cons "include_usage" (Json.bool true) .nil)))
    ∧ (∀ v, body_json.get "stream_options" = some v →
        (rewrite_body body_json route.provider_model_name m
          (extract_is_stream body_json)).get "stream_options" = some v)
    ∧ (∀ k, k ≠ "model" → k ≠ "stream_options" →
        (rewrite_body body_json route.provider_model_name m
          (extract_is_stream body_json)).get k = body_json.get k) := by
  obtain ⟨f, rfl⟩ := get_obj_of_get_eq_some body_json "model" (Json.str m) hm
  have hmf : lookupField f "model" = some (Json.str m) := hm
  have hmm : ((Json.obj f).get "model").bind Json.asStr = some m := by
    rw [hm]
    rfl
  obtain ⟨h1, h2, h3, h4⟩ :=
    rewrite_body_gets f route.provider_model_name m (extract_is_stream (Json.obj f)) hmf
  refine ⟨?_, h1, h2, h3, h4⟩
  rw [chat_completions_budget_pass identity bodyText (Json.obj f) m _ hparse hmm hb]
  rfl

/-- C7 witness: a streaming request without `stream_options`, whose
model name differs from the provider-side name. -/
theorem request_body_rewrite_witness :
    chat_completions ⟨1, "h", none, 0⟩ "\x7b\"model\":\"gpt\",\"stream\":true\x7d"
        (.ok (some sampleRoute))
      = .forward
          (rewrite_body
            (Json.obj (.ofList [("model", Json.str "gpt"), ("stream", Json.bool true)]))
            sampleRoute.provider_model_name "gpt"
            (extract_is_stream
              (Json.obj (.ofList [("model", Json.str "gpt"), ("stream", Json.bool true)]))))
          (sampleRoute.base_url ++ "/chat/completions")
          (extract_is_stream
            (Json.obj (.ofList [("model", Json.str "gpt"), ("stream", Json.bool true)]))) :=
  (request_body_rewrite ⟨1, "h", none, 0⟩ "\x7b\"model\":\"gpt\",\"stream\":true\x7d"
    (Json.obj (.ofList [("model", Json.str "gpt"), ("stream", Json.bool true)]))
    "gpt" sampleRoute (by decide) (by decide) (by decide)).1

/-! ## C1 — authentication is decided by the store, never by the cache -/

theorem validate_key_fst (hashKey : String → String) (plain : String)
    (cache : List String) (db : List UserKeyRow) :
    (validate_key hashKey plain cache db).1
      = (lookupActive db (hashKey plain)).map
          (fun r => ⟨r.id, hashKey plain, r.token_budget, r.tokens_used⟩) := by
  simp only [validate_key]
  by_cases h : cache.contains (hashKey plain)
  · rw [if_pos h]
  · rw [if_neg h]
    cases hl : lookupActive db (hashKey plain) with
    | none => simp
    | some r => simp

theorem stripPre_append : ∀ (pre cs : List Char), stripPre pre (pre ++ cs) = some cs
  | [], _ => rfl
  | p :: ps, cs => by simp [stripPre, stripPre_append ps cs]

theorem stripBearer_append (p : String) : stripBearer ("Bearer " ++ p) = some p := by
  unfold stripBearer
  rw [String.data_append, stripPre_append]
  rfl

/-- C1: for every plaintext `plain` and every cache content,
`validate_key` succeeds exactly when the store holds an active row whose
`key_hash` is the hash of `plain`; the outcome is identical under every
cache content (membership only selects the path and the back-fill); and
when no such active row exists the data-plane request is rejected with
401 `Invalid API key`, even when the hash sits in the cache. -/
theorem validate_key_iff_store (hashKey : String → String) (plain : String)
    (cache : List String) (db : List UserKeyRow) :
    ((validate_key hashKey plain cache db).1.isSome = true
      ↔ ∃ r ∈ db, r.key_hash = hashKey plain ∧ r.is_active = true)
    ∧ (∀ cache2 : List String,
        (validate_key hashKey plain cache db).1 = (validate_key hashKey plain cache2 db).1)
    ∧ ((∀ r ∈ db, ¬ (r.key_hash = hashKey plain ∧ r.is_active = true)) →
        (user_key_auth hashKey (some ("Bearer " ++ plain)) cache db).1
          = .unauthorized "Invalid API key") := by
  refine ⟨?_, ?_, ?_⟩
  · have hmap : (Option.map
        (fun r : UserKeyRow =>
          (⟨r.id, hashKey plain, r.token_budget, r.tokens_used⟩ : KeyValidation))
        (lookupActive db (hashKey plain))).isSome
        = (lookupActive db (hashKey plain)).isSome := Option.isSome_map ..
    rw [validate_key_fst, hmap]
    unfold lookupActive
    rw [List.find?_isSome]
    constructor
    · rintro ⟨r, hr, hp⟩
      simp only [Bool.and_eq_true, beq_iff_eq] at hp
      exact ⟨r, hr, hp⟩
    · rintro ⟨r, hr, h1, h2⟩
      exact ⟨r, hr, by simp [h1, h2]⟩
  · intro cache2
    rw [validate_key_fst, validate_key_fst]
  · intro hnone
    have hl : lookupActive db (hashKey plain) = none := by
      unfold lookupActive
      rw [List.find?_eq_none]
      intro r hr
      simp only [Bool.and_eq_true, beq_iff_eq, not_and]
      intro h1 h2
      exact hnone r hr ⟨h1, h2⟩
    have h1 : (validate_key hashKey plain cache db).1 = none := by
      rw [validate_key_fst, hl]
      rfl
    have hv : validate_key hashKey plain cache db
        = (none, (validate_key hashKey plain cache db).2) := by
      rw [← h1]
    simp only [user_key_auth, Option.some_bind, stripBearer_append]
    rw [hv]

/-- C1 witness: an empty store rejects a token with 401 even though its
hash is a member of the cache set. -/
theorem validate_key_iff_store_witness :
    (user_key_auth (fun s => s) (some ("Bearer " ++ "k1")) ["k1"]
        ([] : List UserKeyRow)).1
      = .unauthorized "Invalid API key" :=
  (validate_key_iff_store (fun s => s) "k1" ["k1"] []).2.2 (by decide)

/-! ## C9 — weighted usage listing -/

theorem lookupTotal_addWeighted_same : ∀ (acc : List (Nat × Int)) (kid : Nat) (w : Int),
    lookupTotal (addWeighted acc kid w) kid = some ((lookupTotal acc kid).getD 0 + w)
  | [], kid, w => by simp [addWeighted, lookupTotal]
  | (k, t) :: rest, kid, w => by
    by_cases h : k = kid
    · subst h
      simp [addWeighted, lookupTotal]
    · simp [addWeighted, h, lookupTotal, lookupTotal_addWeighted_same rest kid w]

theorem lookupTotal_addWeighted_other :
    ∀ (acc : List (Nat × Int)) (kid kid2 : Nat) (w : Int), kid ≠ kid2 →
    lookupTotal (addWeighted acc kid w) kid2 = lookupTotal acc kid2
  | [], kid, kid2, w, h => by simp [addWeighted, lookupTotal, h]
  | (k, t) :: rest, kid, kid2, w, h => by
    by_cases hk : k = kid
    · subst hk
      simp [addWeighted, lookupTotal, h]
    · simp [addWeighted, hk, lookupTotal, lookupTotal_addWeighted_other rest kid kid2 w h]

theorem lookupTotal_foldl_weightedStep (models : List ModelCoeffRow) :
    ∀ (logs : List RequestLogRow) (acc : List (Nat × Int)) (kid : Nat),
    lookupTotal (logs.foldl (weightedStep models) acc) kid
      = match lookupTotal acc kid with
        | some t => some (t + ((logs.filter
            (fun r => r.user_key_id == some kid)).map (rowWeighted models)).sum)
        | none =>
          if logs.any (fun r => r.user_key_id == some kid) then
            some ((logs.filter
              (fun r => r.user_key_id == some kid)).map (rowWeighted models)).sum
          else none
  | [], acc, kid => by
    cases h : lookupTotal acc kid <;> simp [h]
  | r :: rest, acc, kid => by
    cases hk : r.user_key_id with
    | none =>
      have hne : (r.user_key_id == some kid) = false := by simp [hk]
      simp only [List.foldl_cons, weightedStep, hk, List.filter_cons, hne,
        Bool.false_eq_true, if_false, List.any_cons, Bool.false_or]
      exact lookupTotal_foldl_weightedStep models rest acc kid
    | some k2 =>
      by_cases hkk : k2 = kid
      · subst hkk
        have heq : ((some k2 : Option Nat) == some k2) = true := by simp
        simp only [List.foldl_cons, weightedStep, hk, List.filter_cons, heq, if_true,
          List.any_cons, Bool.true_or, List.map_cons, List.sum_cons]
        rw [lookupTotal_foldl_weightedStep models rest
          (addWeighted acc k2 (rowWeighted models r)) k2]
        rw [lookupTotal_addWeighted_same acc k2 (rowWeighted models r)]
        cases hacc : lookupTotal acc k2 with
        | none =>
          simp only [Option.getD_none, Option.some.injEq]
          simp [add_comm]
        | some t =>
          simp only [Option.getD_some, Option.some.injEq]
          ring
      · have hne : ((some k2 : Option Nat) == some kid) = false := by simp [hkk]
        simp only [List.foldl_cons, weightedStep, hk, List.filter_cons, hne,
          Bool.false_eq_true, if_false, List.any_cons, Bool.false_or]
        rw [lookupTotal_foldl_weightedStep models rest
          (addWeighted acc k2 (rowWeighted models r)) kid]
        rw [lookupTotal_addWeighted_other acc k2 kid (rowWeighted models r) hkk]

theorem lookupTotal_weightedTotals (models : List ModelCoeffRow)
    (logs : List RequestLogRow) (kid : Nat) :
    lookupTotal (weightedTotals models logs) kid
      = if logs.any (fun r => r.user_key_id == some kid) then
          some ((logs.filter
            (fun r => r.user_key_id == some kid)).map (rowWeighted models)).sum
        else none := by
  unfold weightedTotals
  have h := lookupTotal_foldl_weightedStep models logs [] kid
  simpa [lookupTotal] using h

/-- C9: `list_keys` reports, for each key, the sum over that key's log
rows of `round(prompt × input_coefficient + completion ×
output_coefficient)` — coefficients joined from `models` by the
requested model name and defaulting to 1 when no row matches, token
counts defaulting to 0 when NULL — and the stored `tokens_used` counter
when the key has no log rows; in particular, with coefficients `(2, 3)`
and a single row `(prompt 10, completion 20)` the reported value is
`80`. -/
theorem list_keys_weighted_usage :
    (∀ (keys : List UserKeyRow) (logs : List RequestLogRow) (models : List ModelCoeffRow),
      list_keys keys logs models
        = keys.map (fun k =>
            (k.id,
              if logs.any (fun r => r.user_key_id == some k.id) then
                ((logs.filter (fun r => r.user_key_id == some k.id)).map
                  (fun r =>
                    round ((r.prompt_tokens.getD 0 : ℚ)
                        * (((models.find? (fun mr => mr.name == r.model_requested)).map
                            (fun mr => mr.input_token_coefficient)).getD 1)
                      + (r.completion_tokens.getD 0 : ℚ)
                        * (((models.find? (fun mr => mr.name == r.model_requested)).map
                            (fun mr => mr.output_token_coefficient)).getD 1)))).sum
              else k.tokens_used)))
    ∧ list_keys [⟨1, "h1", true, none, 999⟩]
        [⟨some 1, "m", some 10, some 20⟩] [⟨"m", 2, 3⟩] = [(1, 80)] := by
  constructor
  · intro keys logs models
    have hfun : rowWeighted models
        = (fun r : RequestLogRow =>
            round ((r.prompt_tokens.getD 0 : ℚ)
                * (((models.find? (fun mr => mr.name == r.model_requested)).map
                    (fun mr => mr.input_token_coefficient)).getD 1)
              + (r.completion_tokens.getD 0 : ℚ)
                * (((models.find? (fun mr => mr.name == r.model_requested)).map
                    (fun mr => mr.output_token_coefficient)).getD 1))) := by
      funext r
      rfl
    unfold list_keys
    apply List.map_congr_left
    intro k _
    rw [lookupTotal_weightedTotals]
    by_cases hany : logs.any (fun r => r.user_key_id == some k.id)
    · rw [if_pos hany, if_pos hany, Option.getD_some, ← hfun]
    · rw [if_neg hany, if_neg hany]
      rfl
  · have hw : rowWeighted [⟨"m", 2, 3⟩] ⟨some 1, "m", some 10, some 20⟩ = 80 := by
      have hfind : List.find? (fun mr : ModelCoeffRow => mr.name == "m") [⟨"m", 2, 3⟩]
          = some ⟨"m", 2, 3⟩ := rfl
      simp only [rowWeighted, hfind, Option.map_some', Option.getD_some]
      rw [show (((10 : ℤ) : ℚ) * 2 + ((20 : ℤ) : ℚ) * 3) = ((80 : ℤ) : ℚ) by
        push_cast
        norm_num]
      exact round_intCast 80
    unfold list_keys weightedTotals
    simp only [List.foldl_cons, List.foldl_nil, weightedStep, hw]
    simp [addWeighted, lookupTotal]
